import Mathlib

/-!
Shallow embedding of the ring buffer in src/ring_buffer.h.

The C++ class RingBuffer<T, buffer_size, allow_overwrite, lock, unlock> is
modelled as a state record plus pure functions.  The externally supplied lock
is modelled by a boolean parameter lockOk: the outcome of the lock() call at
the head of each operation (the lock itself is an external collaborator, so
only its success or failure is visible to the buffer code).  Array indexing
uses List.getD / List.set; memcpy is modelled by copyInto.  The bitmask
update x &= (buffer_size - 1) is modelled by Nat.land via rbMask, with
buffer_size a power of two as the source statically asserts.
-/

/-- Error codes of rb_error_t in src/ring_buffer.h. -/
inductive rb_error_t where
  | RB_ERROR_NONE
  | RB_ERROR_ILLEGAL
  | RB_ERROR_TIMEOUT
  | RB_ERROR_OVERWRITE
deriving DecidableEq, Repr

export rb_error_t (RB_ERROR_NONE RB_ERROR_ILLEGAL RB_ERROR_TIMEOUT RB_ERROR_OVERWRITE)

/-- Result struct rb_result_t of src/ring_buffer.h: an error code and a value
that is only meaningful when the error is RB_ERROR_NONE. -/
structure rb_result_t (T : Type) where
  error : rb_error_t
  value : T
deriving DecidableEq, Repr

/-- Private state of the RingBuffer class: the backing array, the two indices
and the full flag (src/ring_buffer.h lines 183-186). -/
structure RingBufferState (α : Type) where
  buffer : List α
  write_index : Nat
  read_index : Nat
  full : Bool
deriving DecidableEq, Repr

/-- Models the masked index update x &= (buffer_size - 1) of the source. -/
def rbMask (N x : Nat) : Nat := x &&& (N - 1)

/-- Models memcpy of k elements: for each i < k, position dstOff + i of dst
receives element srcOff + i of src.  A write past the end of dst is a no-op
of List.set (the C code never performs one under the buffer invariants). -/
def copyInto [Inhabited α] (dst : List α) (dstOff : Nat) (src : List α) (srcOff : Nat) :
    Nat → List α
  | 0 => dst
  | k + 1 => (copyInto dst dstOff src srcOff k).set (dstOff + k) (src.getD (srcOff + k) default)

namespace RingBuffer

/-- Constructed state: indices 0, full flag clear (lines 184-186); the storage
contents are arbitrary at construction, modelled as all-default. -/
def init (α : Type) [Inhabited α] (N : Nat) : RingBufferState α :=
  { buffer := List.replicate N default, write_index := 0, read_index := 0, full := false }

/-- unsafe_level of the source (lines 188-204). -/
def level_locked (N : Nat) (s : RingBufferState α) : Nat :=
  if s.full then N
  else if s.write_index ≥ s.read_index then s.write_index - s.read_index
  else N + s.write_index - s.read_index

/-- unsafe_is_empty of the source (lines 206-209). -/
def is_empty_locked (s : RingBufferState α) : Bool :=
  (s.write_index == s.read_index) && !s.full

/-- unsafe_mark_full of the source (lines 211-215). -/
def mark_full (s : RingBufferState α) : RingBufferState α :=
  { s with write_index := s.read_index, full := true }

/-- unsafe_mark_empty of the source (lines 217-221). -/
def mark_empty (s : RingBufferState α) : RingBufferState α :=
  { s with read_index := s.write_index, full := false }

/-- Single-item put (lines 224-277).  Returns the error code and the new state. -/
def put (N : Nat) (allow_overwrite lockOk : Bool) (s : RingBufferState α) (item : α) :
    rb_error_t × RingBufferState α :=
  if lockOk then
    let step :=
      if s.full then
        if allow_overwrite then
          (RB_ERROR_OVERWRITE, rbMask N (s.read_index + 1), true)
        else
          (RB_ERROR_ILLEGAL, s.read_index, false)
      else
        (RB_ERROR_NONE, s.read_index, true)
    let result := step.1
    let read_index2 := step.2.1
    let do_write := step.2.2
    if do_write then
      let buffer2 := s.buffer.set s.write_index item
      let write_index2 := rbMask N (s.write_index + 1)
      (result, { buffer := buffer2, write_index := write_index2, read_index := read_index2,
                 full := write_index2 == read_index2 })
    else
      (result, { s with read_index := read_index2 })
  else
    (RB_ERROR_TIMEOUT, s)

/-- Body of the bulk put once the lock is held and overwrite handling is done:
the do_write block of lines 313-368. -/
def put_bulk_locked [Inhabited α] (N : Nat) (s : RingBufferState α) (items : List α)
    (n_items : Nat) : Nat × RingBufferState α :=
  if s.write_index ≥ s.read_index then
    let available_until_end_of_buffer := N - s.write_index
    if n_items ≥ available_until_end_of_buffer then
      let buffer1 := copyInto s.buffer s.write_index items 0 available_until_end_of_buffer
      let n_items_remaining := n_items - available_until_end_of_buffer
      if n_items_remaining < s.read_index then
        (n_items,
         { s with buffer := copyInto buffer1 0 items available_until_end_of_buffer n_items_remaining,
                  write_index := n_items_remaining })
      else
        (available_until_end_of_buffer + s.read_index,
         mark_full { s with buffer := copyInto buffer1 0 items available_until_end_of_buffer s.read_index })
    else
      (n_items,
       { s with buffer := copyInto s.buffer s.write_index items 0 n_items,
                write_index := s.write_index + n_items })
  else
    let available := s.read_index - s.write_index
    if n_items < available then
      (n_items,
       { s with buffer := copyInto s.buffer s.write_index items 0 n_items,
                write_index := s.write_index + n_items })
    else
      (available,
       mark_full { s with buffer := copyInto s.buffer s.write_index items 0 available })

/-- Bulk put (lines 279-383).  Returns the rb_result_t (error, count) and the
new state. -/
def put_bulk [Inhabited α] (N : Nat) (allow_overwrite lockOk : Bool) (s : RingBufferState α)
    (items : List α) (n_items : Nat) : rb_result_t Nat × RingBufferState α :=
  if lockOk then
    if s.full then
      if allow_overwrite then
        let s1 := { s with read_index := rbMask N (s.read_index + min n_items N) }
        let r := put_bulk_locked N s1 items n_items
        ({ error := RB_ERROR_OVERWRITE, value := r.1 }, r.2)
      else
        ({ error := RB_ERROR_NONE, value := 0 }, s)
    else
      let r := put_bulk_locked N s items n_items
      ({ error := RB_ERROR_NONE, value := r.1 }, r.2)
  else
    ({ error := RB_ERROR_TIMEOUT, value := 0 }, s)

/-- Single-item get (lines 385-422).  The C code initialises value to T(),
modelled by default; it is only meaningful when the error is RB_ERROR_NONE. -/
def get [Inhabited α] (N : Nat) (lockOk : Bool) (s : RingBufferState α) :
    rb_result_t α × RingBufferState α :=
  if lockOk then
    if is_empty_locked s then
      ({ error := RB_ERROR_ILLEGAL, value := default }, s)
    else
      ({ error := RB_ERROR_NONE, value := s.buffer.getD s.read_index default },
       { s with read_index := rbMask N (s.read_index + 1), full := false })
  else
    ({ error := RB_ERROR_TIMEOUT, value := default }, s)

/-- Body of the bulk get once the lock is held (lines 432-491).  Returns the
count, the new buffer state and the caller's output array after the copies.
In the branch where the write index is at or behind the read index and
n_items is less than the contiguous run before the end of the array, the
source copies from buffer[write_index] (line 487), which this definition
reproduces verbatim. -/
def get_bulk_locked [Inhabited α] (N : Nat) (s : RingBufferState α) (items : List α)
    (n_items : Nat) : Nat × RingBufferState α × List α :=
  if is_empty_locked s then
    (0, s, items)
  else if s.write_index > s.read_index then
    let available := s.write_index - s.read_index
    if n_items < available then
      (n_items, { s with read_index := s.read_index + n_items },
       copyInto items 0 s.buffer s.read_index n_items)
    else
      (available, mark_empty s, copyInto items 0 s.buffer s.read_index available)
  else
    let available_until_end_of_buffer := N - s.read_index
    if n_items ≥ available_until_end_of_buffer then
      let items1 := copyInto items 0 s.buffer s.read_index available_until_end_of_buffer
      let n_items_remaining := n_items - available_until_end_of_buffer
      if n_items_remaining < s.write_index then
        (n_items, { s with read_index := n_items_remaining },
         copyInto items1 available_until_end_of_buffer s.buffer 0 n_items_remaining)
      else
        (available_until_end_of_buffer + s.write_index, mark_empty s,
         copyInto items1 available_until_end_of_buffer s.buffer 0 s.write_index)
    else
      (n_items, { s with read_index := s.read_index + n_items },
       copyInto items 0 s.buffer s.write_index n_items)

/-- Bulk get (lines 424-502).  Returns the rb_result_t (error, count), the new
state, and the caller's output array after the copies. -/
def get_bulk [Inhabited α] (N : Nat) (lockOk : Bool) (s : RingBufferState α) (items : List α)
    (n_items : Nat) : rb_result_t Nat × RingBufferState α × List α :=
  if lockOk then
    let r := get_bulk_locked N s items n_items
    ({ error := RB_ERROR_NONE, value := r.1 }, r.2.1, r.2.2)
  else
    ({ error := RB_ERROR_TIMEOUT, value := 0 }, s, items)

/-- reset (lines 504-520). -/
def reset (lockOk : Bool) (s : RingBufferState α) : rb_error_t × RingBufferState α :=
  if lockOk then
    (RB_ERROR_NONE, { s with write_index := s.read_index, full := false })
  else
    (RB_ERROR_TIMEOUT, s)

/-- is_empty (lines 522-542). -/
def is_empty (lockOk : Bool) (s : RingBufferState α) : rb_result_t Bool × RingBufferState α :=
  if lockOk then
    ({ error := RB_ERROR_NONE, value := is_empty_locked s }, s)
  else
    ({ error := RB_ERROR_TIMEOUT, value := true }, s)

/-- level (lines 544-562). -/
def level (N : Nat) (lockOk : Bool) (s : RingBufferState α) :
    rb_result_t Nat × RingBufferState α :=
  if lockOk then
    ({ error := RB_ERROR_NONE, value := level_locked N s }, s)
  else
    ({ error := RB_ERROR_TIMEOUT, value := 0 }, s)

/-- available (lines 564-582). -/
def available (N : Nat) (lockOk : Bool) (s : RingBufferState α) :
    rb_result_t Nat × RingBufferState α :=
  if lockOk then
    ({ error := RB_ERROR_NONE, value := N - level_locked N s }, s)
  else
    ({ error := RB_ERROR_TIMEOUT, value := 0 }, s)

/-- Index invariant of the data model: both indices lie in the interval from 0
up to but excluding N (the lower bound is inherent to Nat). -/
def Inv (N : Nat) (s : RingBufferState α) : Prop :=
  s.write_index < N ∧ s.read_index < N

instance (N : Nat) (s : RingBufferState α) : Decidable (Inv N s) := by
  unfold Inv; infer_instance

end RingBuffer

section CopyIntoLemmas

variable [Inhabited α]

/-- copyInto does not change the length of the destination. -/
theorem length_copyInto (dst : List α) (o : Nat) (src : List α) (so k : Nat) :
    (copyInto dst o src so k).length = dst.length := by
  induction k with
  | zero => rfl
  | succ k ih => simp [copyInto, ih]

/-- Positions at or past the copied range are untouched by copyInto. -/
theorem getD_copyInto_of_ge (dst : List α) (o : Nat) (src : List α) (so k : Nat) (i : Nat)
    (d : α) (hi : o + k ≤ i) :
    (copyInto dst o src so k).getD i d = dst.getD i d := by
  induction k with
  | zero => rfl
  | succ k ih =>
    have hne : o + k ≠ i := by omega
    simp only [copyInto, List.getD_eq_getElem?_getD, List.getElem?_set_ne hne]
    have := ih (by omega)
    simpa [List.getD_eq_getElem?_getD] using this

/-- Positions before the copied range are untouched by copyInto. -/
theorem getD_copyInto_of_lt_off (dst : List α) (o : Nat) (src : List α) (so k : Nat) (i : Nat)
    (d : α) (hi : i < o) :
    (copyInto dst o src so k).getD i d = dst.getD i d := by
  induction k with
  | zero => rfl
  | succ k ih =>
    have hne : o + k ≠ i := by omega
    simp only [copyInto, List.getD_eq_getElem?_getD, List.getElem?_set_ne hne]
    simpa [List.getD_eq_getElem?_getD] using ih

/-- Inside the copied range, copyInto installs the corresponding source element
(provided the destination slot exists). -/
theorem getD_copyInto_of_lt (dst : List α) (o : Nat) (src : List α) (so k : Nat) (i : Nat)
    (d : α) (hi : i < k) (hb : o + i < dst.length) (hs : so + i < src.length) :
    (copyInto dst o src so k).getD (o + i) d = src.getD (so + i) d := by
  induction k with
  | zero => omega
  | succ k ih =>
    rcases Nat.lt_succ_iff_lt_or_eq.mp hi with hlt | rfl
    · have hne : o + k ≠ o + i := by omega
      simp only [copyInto, List.getD_eq_getElem?_getD, List.getElem?_set_ne hne]
      have := ih hlt
      simpa [List.getD_eq_getElem?_getD] using this
    · have hlen : o + i < (copyInto dst o src so i).length := by
        rw [length_copyInto]; exact hb
      simp only [copyInto, List.getD_eq_getElem?_getD, List.getElem?_set_self hlen]
      simp [List.getElem?_eq_getElem hs]

end CopyIntoLemmas

/-- Reading a position that exists returns an element of the list. -/
theorem getD_mem_of_lt (l : List α) (i : Nat) (d : α) (h : i < l.length) :
    l.getD i d ∈ l := by
  rw [List.getD_eq_getElem?_getD, List.getElem?_eq_getElem h]
  exact List.getElem_mem h

/-- Masked index arithmetic: for a power-of-two capacity the bitmask update of
the source coincides with reduction modulo the capacity. -/
theorem rbMask_two_pow (k x : Nat) : rbMask (2 ^ k) x = x % 2 ^ k := by
  simp [rbMask, Nat.and_pow_two_sub_one_eq_mod]

namespace RingBuffer

/-- State reached from a fresh capacity-4 buffer (overwrite disabled, lock free)
by the operation sequence put 1, put 2, get, get, put 3, put 4.  Its storage is
[1, 2, 3, 4] with write_index 0 and read_index 2, so the unread elements are
3 followed by 4, and the buffer is wrapped (write_index < read_index). -/
def wrappedState : RingBufferState Nat :=
  (put 4 false true
    (put 4 false true
      (get 4 true
        (get 4 true
          (put 4 false true
            (put 4 false true (init Nat 4) 1).2 2).2).2).2 3).2 4).2

end RingBuffer

/-- C1: the claim says a bulk get of n items from a wrapped buffer
(write_index < read_index) with n smaller than the contiguous run before the
end of the array returns the n oldest unread elements starting at read_index.
The code instead copies from buffer[write_index] (src/ring_buffer.h line 487):
at the reachable wrapped state with storage [1,2,3,4], write_index 0,
read_index 2 (oldest unread element 3), a bulk get of one item returns the
stale element 1 and not [3]. -/
theorem C1_bulk_get_wrapped_reads_from_write_index :
    RingBuffer.wrappedState.write_index = 0 ∧
    RingBuffer.wrappedState.read_index = 2 ∧
    RingBuffer.wrappedState.full = false ∧
    RingBuffer.wrappedState.buffer.getD RingBuffer.wrappedState.read_index 0 = 3 ∧
    (RingBuffer.get_bulk 4 true RingBuffer.wrappedState [0] 1).1
      = { error := RB_ERROR_NONE, value := 1 } ∧
    (RingBuffer.get_bulk 4 true RingBuffer.wrappedState [0] 1).2.2 = [1] ∧
    (RingBuffer.get_bulk 4 true RingBuffer.wrappedState [0] 1).2.2 ≠ [3] := by
  decide

namespace RingBuffer

/-- Full capacity-4 buffer with overwrite enabled, reached by a bulk put of
[1, 2, 3, 4] into a fresh buffer. -/
def c2FullOverwrite : RingBufferState Nat :=
  (put_bulk 4 true true (init Nat 4) [1, 2, 3, 4] 4).2

/-- Full capacity-4 buffer with overwrite disabled, reached by a bulk put of
[1, 2, 3, 4] into a fresh buffer. -/
def c2FullNoOverwrite : RingBufferState Nat :=
  (put_bulk 4 false true (init Nat 4) [1, 2, 3, 4] 4).2

end RingBuffer

/-- C2 counterexample: with capacity 4 and allow_overwrite enabled, the bulk
put of [1,2,3,4] fills the buffer, but the bulk put of [5,6] does NOT return
count 0: the full-with-overwrite path (src/ring_buffer.h lines 292-298)
advances read_index by two and writes both items, returning RB_ERROR_OVERWRITE
with count 2, and the next get then yields 3, not 1. -/
theorem C2_counterexample_overwrite_bulk_put :
    (RingBuffer.put_bulk 4 true true (RingBuffer.init Nat 4) [1, 2, 3, 4] 4).1
      = { error := RB_ERROR_NONE, value := 4 } ∧
    RingBuffer.c2FullOverwrite.full = true ∧
    (RingBuffer.put_bulk 4 true true RingBuffer.c2FullOverwrite [5, 6] 2).1.value = 2 ∧
    (RingBuffer.put_bulk 4 true true RingBuffer.c2FullOverwrite [5, 6] 2).1.value ≠ 0 ∧
    (RingBuffer.put_bulk 4 true true RingBuffer.c2FullOverwrite [5, 6] 2).1.error
      = RB_ERROR_OVERWRITE ∧
    (RingBuffer.get 4 true
      (RingBuffer.put_bulk 4 true true RingBuffer.c2FullOverwrite [5, 6] 2).2).1.value = 3 := by
  decide

/-- C2 as amended: with capacity 4 and allow_overwrite DISABLED, after the
bulk put of [1,2,3,4] fills the buffer, a bulk put of [5,6] returns count 0
with no error and no state change, and the four subsequent gets yield
1, 2, 3, 4 in order. -/
theorem C2_amended_bulk_put_to_full_rejects :
    (RingBuffer.put_bulk 4 false true (RingBuffer.init Nat 4) [1, 2, 3, 4] 4).1
      = { error := RB_ERROR_NONE, value := 4 } ∧
    RingBuffer.c2FullNoOverwrite.full = true ∧
    RingBuffer.put_bulk 4 false true RingBuffer.c2FullNoOverwrite [5, 6] 2
      = ({ error := RB_ERROR_NONE, value := 0 }, RingBuffer.c2FullNoOverwrite) ∧
    (RingBuffer.get 4 true RingBuffer.c2FullNoOverwrite).1
      = { error := RB_ERROR_NONE, value := 1 } ∧
    (RingBuffer.get 4 true
      (RingBuffer.get 4 true RingBuffer.c2FullNoOverwrite).2).1
      = { error := RB_ERROR_NONE, value := 2 } ∧
    (RingBuffer.get 4 true (RingBuffer.get 4 true
      (RingBuffer.get 4 true RingBuffer.c2FullNoOverwrite).2).2).1
      = { error := RB_ERROR_NONE, value := 3 } ∧
    (RingBuffer.get 4 true (RingBuffer.get 4 true (RingBuffer.get 4 true
      (RingBuffer.get 4 true RingBuffer.c2FullNoOverwrite).2).2).2).1
      = { error := RB_ERROR_NONE, value := 4 } := by
  decide

/-- C3 counterexample: a fresh (empty, hence non-full) capacity-4 buffer has
write_index = read_index = 0, a bulk put of n = 4 items reaches past the end
of the array (4 is at least 4 - write_index) and the remainder 0 reaches
read_index = 0, so the buffer is marked full — but the returned count is 4,
which is not strictly less than n. -/
theorem C3_counterexample_exact_fill_count :
    (RingBuffer.init Nat 4).full = false ∧
    (RingBuffer.init Nat 4).read_index ≤ (RingBuffer.init Nat 4).write_index ∧
    4 - (RingBuffer.init Nat 4).write_index ≤ 4 ∧
    (RingBuffer.init Nat 4).read_index ≤ 4 - (4 - (RingBuffer.init Nat 4).write_index) ∧
    (RingBuffer.put_bulk 4 false true (RingBuffer.init Nat 4) [9, 8, 7, 6] 4).2.full = true ∧
    (RingBuffer.put_bulk 4 false true (RingBuffer.init Nat 4) [9, 8, 7, 6] 4).1.value = 4 ∧
    ¬ (RingBuffer.put_bulk 4 false true (RingBuffer.init Nat 4) [9, 8, 7, 6] 4).1.value < 4 := by
  decide

/-- C3 as amended: for every non-full buffer state with write_index at least
read_index and every bulk put of n items where n reaches past the end of the
array (n is at least N - write_index) and the remainder reaches or exceeds
read_index, the buffer is marked full after writing only up to read_index
(the new write_index equals read_index), and the returned count equals
(N - write_index) + read_index, which is at most n — and strictly less than n
exactly when the remainder strictly exceeds read_index. -/
theorem C3_amended_short_write_marks_full [Inhabited α] (N : Nat) (ao : Bool)
    (s : RingBufferState α) (items : List α) (n : Nat)
    (hfull : s.full = false) (hwr : s.read_index ≤ s.write_index)
    (hn : N - s.write_index ≤ n) (hrem : s.read_index ≤ n - (N - s.write_index)) :
    (RingBuffer.put_bulk N ao true s items n).2.full = true ∧
    (RingBuffer.put_bulk N ao true s items n).2.write_index = s.read_index ∧
    (RingBuffer.put_bulk N ao true s items n).1.value
      = (N - s.write_index) + s.read_index ∧
    (RingBuffer.put_bulk N ao true s items n).1.value ≤ n ∧
    (s.read_index < n - (N - s.write_index) →
      (RingBuffer.put_bulk N ao true s items n).1.value < n) := by
  have h3 : ¬ (n - (N - s.write_index) < s.read_index) := by omega
  simp only [RingBuffer.put_bulk, RingBuffer.put_bulk_locked, RingBuffer.mark_full,
    hfull, if_true, if_pos hwr, if_pos hn, if_neg h3, Bool.false_eq_true, if_false,
    ge_iff_le]
  refine ⟨trivial, trivial, trivial, by omega, by omega⟩

/-- Witness for C3_amended_short_write_marks_full: capacity 4, state with
write_index 2, read_index 1, not full, bulk put of 4 items. -/
theorem C3_amended_witness :
    ((⟨[0, 0, 0, 0], 2, 1, false⟩ : RingBufferState Nat).full = false ∧
     (1 : Nat) ≤ 2 ∧ (4 : Nat) - 2 ≤ 4 ∧ (1 : Nat) ≤ 4 - (4 - 2)) ∧
    ((RingBuffer.put_bulk 4 false true (⟨[0, 0, 0, 0], 2, 1, false⟩ : RingBufferState Nat)
        [7, 7, 7, 7] 4).2.full = true ∧
     (RingBuffer.put_bulk 4 false true (⟨[0, 0, 0, 0], 2, 1, false⟩ : RingBufferState Nat)
        [7, 7, 7, 7] 4).2.write_index = 1 ∧
     (RingBuffer.put_bulk 4 false true (⟨[0, 0, 0, 0], 2, 1, false⟩ : RingBufferState Nat)
        [7, 7, 7, 7] 4).1.value = (4 - 2) + 1 ∧
     (RingBuffer.put_bulk 4 false true (⟨[0, 0, 0, 0], 2, 1, false⟩ : RingBufferState Nat)
        [7, 7, 7, 7] 4).1.value ≤ 4 ∧
     ((1 : Nat) < 4 - (4 - 2) →
       (RingBuffer.put_bulk 4 false true (⟨[0, 0, 0, 0], 2, 1, false⟩ : RingBufferState Nat)
          [7, 7, 7, 7] 4).1.value < 4)) :=
  ⟨by decide,
   C3_amended_short_write_marks_full 4 false ⟨[0, 0, 0, 0], 2, 1, false⟩ [7, 7, 7, 7] 4
     rfl (by decide) (by decide) (by decide)⟩

/-- C4: the claim says every sequence of single and bulk puts and gets that
never exceeds capacity retrieves exactly the elements put, in strict FIFO
order value-for-value.  The sequence put 1, put 2, get, get, put 3, put 4 on
a fresh capacity-4 buffer (overwrite disabled) never holds more than two
elements; all four puts succeed with RB_ERROR_NONE, the two single gets
retrieve 1 and 2, so FIFO requires the next retrieval to yield 3 — but a bulk
get of one item returns [1], a stale value, because the bulk get reads from
write_index in the wrapped no-wraparound branch (src/ring_buffer.h line 487). -/
theorem C4_fifo_violated_by_wrapped_bulk_get :
    (RingBuffer.put 4 false true (RingBuffer.init Nat 4) 1).1 = RB_ERROR_NONE ∧
    (RingBuffer.put 4 false true
      (RingBuffer.put 4 false true (RingBuffer.init Nat 4) 1).2 2).1 = RB_ERROR_NONE ∧
    (RingBuffer.get 4 true
      (RingBuffer.put 4 false true
        (RingBuffer.put 4 false true (RingBuffer.init Nat 4) 1).2 2).2).1
      = { error := RB_ERROR_NONE, value := 1 } ∧
    (RingBuffer.get 4 true
      (RingBuffer.get 4 true
        (RingBuffer.put 4 false true
          (RingBuffer.put 4 false true (RingBuffer.init Nat 4) 1).2 2).2).2).1
      = { error := RB_ERROR_NONE, value := 2 } ∧
    (RingBuffer.put 4 false true
      (RingBuffer.get 4 true
        (RingBuffer.get 4 true
          (RingBuffer.put 4 false true
            (RingBuffer.put 4 false true (RingBuffer.init Nat 4) 1).2 2).2).2).2 3).1
      = RB_ERROR_NONE ∧
    (RingBuffer.put 4 false true
      (RingBuffer.put 4 false true
        (RingBuffer.get 4 true
          (RingBuffer.get 4 true
            (RingBuffer.put 4 false true
              (RingBuffer.put 4 false true (RingBuffer.init Nat 4) 1).2 2).2).2).2 3).2 4).1
      = RB_ERROR_NONE ∧
    RingBuffer.level_locked 4 RingBuffer.wrappedState = 2 ∧
    (RingBuffer.get_bulk 4 true RingBuffer.wrappedState [0] 1).1.value = 1 ∧
    (RingBuffer.get_bulk 4 true RingBuffer.wrappedState [0] 1).2.2 = [1] ∧
    (RingBuffer.get_bulk 4 true RingBuffer.wrappedState [0] 1).2.2 ≠ [3] := by
  decide

/-- C5: for every full buffer with allow_overwrite false, a bulk put with the
lock acquired writes nothing, leaves the entire state unchanged, and returns
RB_ERROR_NONE with count 0 — unlike the single-item put on a full buffer,
which returns RB_ERROR_ILLEGAL (also leaving the state unchanged). -/
theorem C5_bulk_put_full_no_overwrite [Inhabited α] (N : Nat) (s : RingBufferState α)
    (items : List α) (n : Nat) (item : α) (hfull : s.full = true) :
    RingBuffer.put_bulk N false true s items n
      = ({ error := RB_ERROR_NONE, value := 0 }, s) ∧
    RingBuffer.put N false true s item = (RB_ERROR_ILLEGAL, s) := by
  obtain ⟨buf, w, r, fl⟩ := s
  replace hfull : fl = true := hfull
  subst hfull
  constructor
  · simp [RingBuffer.put_bulk]
  · simp [RingBuffer.put]

/-- Witness for C5_bulk_put_full_no_overwrite at a concrete full buffer. -/
theorem C5_witness :
    (⟨[1, 2, 3, 4], 0, 0, true⟩ : RingBufferState Nat).full = true ∧
    (RingBuffer.put_bulk 4 false true (⟨[1, 2, 3, 4], 0, 0, true⟩ : RingBufferState Nat)
        [5, 6] 2
      = ({ error := RB_ERROR_NONE, value := 0 },
         (⟨[1, 2, 3, 4], 0, 0, true⟩ : RingBufferState Nat)) ∧
     RingBuffer.put 4 false true (⟨[1, 2, 3, 4], 0, 0, true⟩ : RingBufferState Nat) 9
      = (RB_ERROR_ILLEGAL, (⟨[1, 2, 3, 4], 0, 0, true⟩ : RingBufferState Nat))) :=
  ⟨rfl, C5_bulk_put_full_no_overwrite 4 ⟨[1, 2, 3, 4], 0, 0, true⟩ [5, 6] 2 9 rfl⟩

/-- C6: for every full buffer (capacity a power of two, at least 2; a full
reachable state has write_index = read_index) with allow_overwrite true, a
single-item put with the lock acquired returns RB_ERROR_OVERWRITE, leaves the
level at the capacity, and discards exactly the oldest element, so the next
get succeeds and returns the previously second-oldest element (the one at
slot (read_index + 1) mod capacity). -/
theorem C6_single_put_full_overwrite [Inhabited α] (k : Nat) (s : RingBufferState α) (item : α)
    (hk : 1 ≤ k) (hfull : s.full = true) (heq : s.write_index = s.read_index)
    (hr : s.read_index < 2 ^ k) :
    (RingBuffer.put (2 ^ k) true true s item).1 = RB_ERROR_OVERWRITE ∧
    (RingBuffer.level (2 ^ k) true (RingBuffer.put (2 ^ k) true true s item).2).1.value
      = 2 ^ k ∧
    (RingBuffer.get (2 ^ k) true (RingBuffer.put (2 ^ k) true true s item).2).1.error
      = RB_ERROR_NONE ∧
    (RingBuffer.get (2 ^ k) true (RingBuffer.put (2 ^ k) true true s item).2).1.value
      = s.buffer.getD ((s.read_index + 1) % 2 ^ k) default := by
  have hN2 : 2 ≤ 2 ^ k := by
    calc 2 = 2 ^ 1 := (pow_one 2).symm
    _ ≤ 2 ^ k := Nat.pow_le_pow_right (by omega) hk
  have hne : (s.read_index + 1) % 2 ^ k ≠ s.read_index := by
    rcases Nat.lt_or_ge (s.read_index + 1) (2 ^ k) with h | h
    · rw [Nat.mod_eq_of_lt h]; omega
    · have hEq : s.read_index + 1 = 2 ^ k := by omega
      rw [hEq, Nat.mod_self]; omega
  obtain ⟨buf, w, r, fl⟩ := s
  replace hfull : fl = true := hfull
  replace heq : w = r := heq
  replace hne : (r + 1) % 2 ^ k ≠ r := hne
  subst hfull heq
  refine ⟨?_, ?_, ?_, ?_⟩ <;>
    simp [RingBuffer.put, RingBuffer.get, RingBuffer.level, RingBuffer.level_locked,
      RingBuffer.is_empty_locked, rbMask_two_pow, List.getD_eq_getElem?_getD,
      List.getElem?_set_ne (Ne.symm hne)]

/-- Witness for C6_single_put_full_overwrite at a concrete full buffer of
capacity 4 holding 10, 20, 30, 40 with both indices 0. -/
theorem C6_witness :
    ((1 : Nat) ≤ 2 ∧
     (⟨[10, 20, 30, 40], 0, 0, true⟩ : RingBufferState Nat).full = true ∧
     (⟨[10, 20, 30, 40], 0, 0, true⟩ : RingBufferState Nat).write_index
       = (⟨[10, 20, 30, 40], 0, 0, true⟩ : RingBufferState Nat).read_index ∧
     (⟨[10, 20, 30, 40], 0, 0, true⟩ : RingBufferState Nat).read_index < 2 ^ 2) ∧
    ((RingBuffer.put (2 ^ 2) true true
        (⟨[10, 20, 30, 40], 0, 0, true⟩ : RingBufferState Nat) 50).1 = RB_ERROR_OVERWRITE ∧
     (RingBuffer.level (2 ^ 2) true (RingBuffer.put (2 ^ 2) true true
        (⟨[10, 20, 30, 40], 0, 0, true⟩ : RingBufferState Nat) 50).2).1.value = 2 ^ 2 ∧
     (RingBuffer.get (2 ^ 2) true (RingBuffer.put (2 ^ 2) true true
        (⟨[10, 20, 30, 40], 0, 0, true⟩ : RingBufferState Nat) 50).2).1.error
       = RB_ERROR_NONE ∧
     (RingBuffer.get (2 ^ 2) true (RingBuffer.put (2 ^ 2) true true
        (⟨[10, 20, 30, 40], 0, 0, true⟩ : RingBufferState Nat) 50).2).1.value
       = (⟨[10, 20, 30, 40], 0, 0, true⟩ : RingBufferState Nat).buffer.getD
           (((⟨[10, 20, 30, 40], 0, 0, true⟩ : RingBufferState Nat).read_index + 1) % 2 ^ 2)
           default) :=
  ⟨by decide,
   C6_single_put_full_overwrite 2 ⟨[10, 20, 30, 40], 0, 0, true⟩ 50
     (by decide) rfl rfl (by decide)⟩

/-- C7: in every buffer state satisfying the index invariant, with the lock
acquired, level() and available() both succeed and their values sum to the
capacity N. -/
theorem C7_level_plus_available_eq_capacity (N : Nat) (s : RingBufferState α)
    (hw : s.write_index < N) (hr : s.read_index < N) :
    (RingBuffer.level N true s).1.error = RB_ERROR_NONE ∧
    (RingBuffer.available N true s).1.error = RB_ERROR_NONE ∧
    (RingBuffer.level N true s).1.value + (RingBuffer.available N true s).1.value = N := by
  refine ⟨rfl, rfl, ?_⟩
  have h1 : RingBuffer.level N true s
      = ({ error := RB_ERROR_NONE, value := RingBuffer.level_locked N s }, s) := rfl
  have h2 : RingBuffer.available N true s
      = ({ error := RB_ERROR_NONE, value := N - RingBuffer.level_locked N s }, s) := rfl
  rw [h1, h2]
  have hle : RingBuffer.level_locked N s ≤ N := by
    unfold RingBuffer.level_locked
    split_ifs <;> omega
  simpa using Nat.add_sub_cancel' hle

/-- Witness for C7_level_plus_available_eq_capacity at a wrapped state. -/
theorem C7_witness :
    ((⟨[0, 0, 0, 0], 1, 3, false⟩ : RingBufferState Nat).write_index < 4 ∧
     (⟨[0, 0, 0, 0], 1, 3, false⟩ : RingBufferState Nat).read_index < 4) ∧
    ((RingBuffer.level 4 true (⟨[0, 0, 0, 0], 1, 3, false⟩ : RingBufferState Nat)).1.error
       = RB_ERROR_NONE ∧
     (RingBuffer.available 4 true (⟨[0, 0, 0, 0], 1, 3, false⟩ : RingBufferState Nat)).1.error
       = RB_ERROR_NONE ∧
     (RingBuffer.level 4 true (⟨[0, 0, 0, 0], 1, 3, false⟩ : RingBufferState Nat)).1.value +
       (RingBuffer.available 4 true (⟨[0, 0, 0, 0], 1, 3, false⟩ : RingBufferState Nat)).1.value
       = 4) :=
  ⟨by decide,
   C7_level_plus_available_eq_capacity 4 ⟨[0, 0, 0, 0], 1, 3, false⟩ (by decide) (by decide)⟩

/-- C8: for every buffer state, when lock acquisition fails, put, bulk put,
get, bulk get, is_empty, level, available and reset each return the
RB_ERROR_TIMEOUT error and leave the state (indices, full flag and storage)
and the caller's output array unchanged. -/
theorem C8_lock_timeout_no_mutation [Inhabited α] (N : Nat) (ao : Bool)
    (s : RingBufferState α) (item : α) (items out : List α) (n : Nat) :
    RingBuffer.put N ao false s item = (RB_ERROR_TIMEOUT, s) ∧
    RingBuffer.put_bulk N ao false s items n
      = ({ error := RB_ERROR_TIMEOUT, value := 0 }, s) ∧
    RingBuffer.get N false s = ({ error := RB_ERROR_TIMEOUT, value := default }, s) ∧
    RingBuffer.get_bulk N false s out n
      = ({ error := RB_ERROR_TIMEOUT, value := 0 }, s, out) ∧
    RingBuffer.is_empty false s = ({ error := RB_ERROR_TIMEOUT, value := true }, s) ∧
    RingBuffer.level N false s = ({ error := RB_ERROR_TIMEOUT, value := 0 }, s) ∧
    RingBuffer.available N false s = ({ error := RB_ERROR_TIMEOUT, value := 0 }, s) ∧
    RingBuffer.reset false s = (RB_ERROR_TIMEOUT, s) :=
  ⟨rfl, rfl, rfl, rfl, rfl, rfl, rfl, rfl⟩

/-- Masked index arithmetic stays below a power-of-two capacity. -/
theorem rbMask_two_pow_lt (k x : Nat) : rbMask (2 ^ k) x < 2 ^ k := by
  rw [rbMask_two_pow]
  exact Nat.mod_lt _ (Nat.two_pow_pos k)

namespace RingBuffer

/-- The locked bulk-put body preserves the index invariant. -/
theorem put_bulk_locked_Inv [Inhabited α] (N : Nat) (s : RingBufferState α) (items : List α)
    (n : Nat) (h : Inv N s) : Inv N (put_bulk_locked N s items n).2 := by
  obtain ⟨buf, w, r, fl⟩ := s
  obtain ⟨hw, hr⟩ := h
  replace hw : w < N := hw
  replace hr : r < N := hr
  simp only [put_bulk_locked, mark_full]
  split_ifs <;> refine ⟨?_, ?_⟩ <;> simp <;> omega

/-- The locked bulk-get body preserves the index invariant. -/
theorem get_bulk_locked_Inv [Inhabited α] (N : Nat) (s : RingBufferState α) (items : List α)
    (n : Nat) (h : Inv N s) : Inv N (get_bulk_locked N s items n).2.1 := by
  obtain ⟨buf, w, r, fl⟩ := s
  obtain ⟨hw, hr⟩ := h
  replace hw : w < N := hw
  replace hr : r < N := hr
  simp only [get_bulk_locked, mark_empty]
  split_ifs <;> refine ⟨?_, ?_⟩ <;> simp <;> omega

/-- Single put preserves the index invariant (power-of-two capacity). -/
theorem put_Inv (k : Nat) (ao lockOk : Bool) (s : RingBufferState α) (item : α)
    (h : Inv (2 ^ k) s) : Inv (2 ^ k) (put (2 ^ k) ao lockOk s item).2 := by
  obtain ⟨buf, w, r, fl⟩ := s
  obtain ⟨hw, hr⟩ := h
  replace hw : w < 2 ^ k := hw
  replace hr : r < 2 ^ k := hr
  unfold put
  cases lockOk <;> cases fl <;> cases ao <;>
    refine ⟨?_, ?_⟩ <;> simp <;>
    first
    | exact rbMask_two_pow_lt k _
    | omega

/-- Bulk put preserves the index invariant (power-of-two capacity). -/
theorem put_bulk_Inv [Inhabited α] (k : Nat) (ao lockOk : Bool) (s : RingBufferState α)
    (items : List α) (n : Nat) (h : Inv (2 ^ k) s) :
    Inv (2 ^ k) (put_bulk (2 ^ k) ao lockOk s items n).2 := by
  unfold put_bulk
  cases lockOk with
  | false => exact h
  | true =>
    cases hfl : s.full with
    | false =>
      simp only [hfl, Bool.false_eq_true, if_false, if_true]
      exact put_bulk_locked_Inv _ _ _ _ h
    | true =>
      cases ao with
      | false => simp only [hfl, if_true, if_false, Bool.false_eq_true]; exact h
      | true =>
        simp only [hfl, if_true]
        refine put_bulk_locked_Inv _ _ _ _ ⟨h.1, ?_⟩
        exact rbMask_two_pow_lt k _

/-- Single get preserves the index invariant (power-of-two capacity). -/
theorem get_Inv [Inhabited α] (k : Nat) (lockOk : Bool) (s : RingBufferState α)
    (h : Inv (2 ^ k) s) : Inv (2 ^ k) (get (2 ^ k) lockOk s).2 := by
  unfold get
  cases lockOk with
  | false => exact h
  | true =>
    cases hem : is_empty_locked s with
    | false =>
      simp only [hem, Bool.false_eq_true, if_false, if_true]
      exact ⟨h.1, rbMask_two_pow_lt k _⟩
    | true => simp only [hem, if_true]; exact h

/-- Bulk get preserves the index invariant. -/
theorem get_bulk_Inv [Inhabited α] (N : Nat) (lockOk : Bool) (s : RingBufferState α)
    (items : List α) (n : Nat) (h : Inv N s) :
    Inv N (get_bulk N lockOk s items n).2.1 := by
  unfold get_bulk
  cases lockOk with
  | false => exact h
  | true => exact get_bulk_locked_Inv _ _ _ _ h

/-- reset preserves the index invariant. -/
theorem reset_Inv (N : Nat) (lockOk : Bool) (s : RingBufferState α) (h : Inv N s) :
    Inv N (reset lockOk s).2 := by
  unfold reset
  cases lockOk with
  | false => exact h
  | true => exact ⟨h.2, h.2⟩

end RingBuffer

/-- C9: starting from the constructed state (both indices 0), every operation
(single and bulk put, single and bulk get, reset), whether or not the lock is
acquired, preserves the invariant that write_index and read_index are at
least 0 (inherent to Nat) and strictly less than the power-of-two capacity. -/
theorem C9_operations_preserve_index_invariant [Inhabited α] (k : Nat) (ao lockOk : Bool)
    (s : RingBufferState α) (item : α) (items out : List α) (n : Nat)
    (h : RingBuffer.Inv (2 ^ k) s) :
    RingBuffer.Inv (2 ^ k) (RingBuffer.init α (2 ^ k)) ∧
    RingBuffer.Inv (2 ^ k) (RingBuffer.put (2 ^ k) ao lockOk s item).2 ∧
    RingBuffer.Inv (2 ^ k) (RingBuffer.put_bulk (2 ^ k) ao lockOk s items n).2 ∧
    RingBuffer.Inv (2 ^ k) (RingBuffer.get (2 ^ k) lockOk s).2 ∧
    RingBuffer.Inv (2 ^ k) (RingBuffer.get_bulk (2 ^ k) lockOk s out n).2.1 ∧
    RingBuffer.Inv (2 ^ k) (RingBuffer.reset lockOk s).2 :=
  ⟨⟨Nat.two_pow_pos k, Nat.two_pow_pos k⟩,
   RingBuffer.put_Inv k ao lockOk s item h,
   RingBuffer.put_bulk_Inv k ao lockOk s items n h,
   RingBuffer.get_Inv k lockOk s h,
   RingBuffer.get_bulk_Inv (2 ^ k) lockOk s out n h,
   RingBuffer.reset_Inv (2 ^ k) lockOk s h⟩

/-- Witness for C9_operations_preserve_index_invariant at capacity 4 with a
wrapped in-range state. -/
theorem C9_witness :
    RingBuffer.Inv (2 ^ 2) (⟨[5, 6, 7, 8], 1, 3, false⟩ : RingBufferState Nat) ∧
    (RingBuffer.Inv (2 ^ 2) (RingBuffer.init Nat (2 ^ 2)) ∧
     RingBuffer.Inv (2 ^ 2)
       (RingBuffer.put (2 ^ 2) true true (⟨[5, 6, 7, 8], 1, 3, false⟩ : RingBufferState Nat) 9).2 ∧
     RingBuffer.Inv (2 ^ 2)
       (RingBuffer.put_bulk (2 ^ 2) true true (⟨[5, 6, 7, 8], 1, 3, false⟩ : RingBufferState Nat)
         [9, 9, 9] 3).2 ∧
     RingBuffer.Inv (2 ^ 2)
       (RingBuffer.get (2 ^ 2) true (⟨[5, 6, 7, 8], 1, 3, false⟩ : RingBufferState Nat)).2 ∧
     RingBuffer.Inv (2 ^ 2)
       (RingBuffer.get_bulk (2 ^ 2) true (⟨[5, 6, 7, 8], 1, 3, false⟩ : RingBufferState Nat)
         [0, 0] 2).2.1 ∧
     RingBuffer.Inv (2 ^ 2)
       (RingBuffer.reset true (⟨[5, 6, 7, 8], 1, 3, false⟩ : RingBufferState Nat)).2) :=
  ⟨by decide,
   C9_operations_preserve_index_invariant 2 true true ⟨[5, 6, 7, 8], 1, 3, false⟩ 9
     [9, 9, 9] [0, 0] 3 (by decide)⟩

namespace RingBuffer

/-- Frame and content analysis of the locked bulk-get body: the count is at
most the request, the output array keeps its length, positions at or past the
count are untouched, and every written position receives an element of the
buffer storage. -/
theorem get_bulk_locked_frame [Inhabited α] (N : Nat) (buf out : List α) (w r : Nat)
    (fl : Bool) (n : Nat) (d : α) (hw : w < N) (hr : r < N) (hbuf : buf.length = N)
    (hn : n ≤ out.length) :
    (get_bulk_locked N (⟨buf, w, r, fl⟩ : RingBufferState α) out n).1 ≤ n ∧
    (get_bulk_locked N (⟨buf, w, r, fl⟩ : RingBufferState α) out n).2.2.length = out.length ∧
    (∀ i, (get_bulk_locked N (⟨buf, w, r, fl⟩ : RingBufferState α) out n).1 ≤ i →
      (get_bulk_locked N (⟨buf, w, r, fl⟩ : RingBufferState α) out n).2.2.getD i d
        = out.getD i d) ∧
    (∀ i, i < (get_bulk_locked N (⟨buf, w, r, fl⟩ : RingBufferState α) out n).1 →
      (get_bulk_locked N (⟨buf, w, r, fl⟩ : RingBufferState α) out n).2.2.getD i d ∈ buf) := by
  by_cases hempty : is_empty_locked (⟨buf, w, r, fl⟩ : RingBufferState α) = true
  · have hres : get_bulk_locked N (⟨buf, w, r, fl⟩ : RingBufferState α) out n
        = (0, ⟨buf, w, r, fl⟩, out) := by
      simp [get_bulk_locked, hempty]
    rw [hres]
    exact ⟨Nat.zero_le n, rfl, fun i _ => rfl, fun i hi => absurd hi (by omega)⟩
  · replace hempty : is_empty_locked (⟨buf, w, r, fl⟩ : RingBufferState α) = false := by
      simpa using hempty
    by_cases hgt : r < w
    · by_cases hlt : n < w - r
      · have hres : get_bulk_locked N (⟨buf, w, r, fl⟩ : RingBufferState α) out n
            = (n, ⟨buf, w, r + n, fl⟩, copyInto out 0 buf r n) := by
          simp [get_bulk_locked, hempty, hgt, hlt]
        rw [hres]
        refine ⟨Nat.le_refl n, length_copyInto out 0 buf r n, ?_, ?_⟩
        · intro i hi
          exact getD_copyInto_of_ge out 0 buf r n i d (by omega)
        · intro i hi
          have h1 := getD_copyInto_of_lt out 0 buf r n i d hi (by omega) (by omega)
          rw [Nat.zero_add] at h1
          rw [h1]
          exact getD_mem_of_lt buf (r + i) d (by omega)
      · have hres : get_bulk_locked N (⟨buf, w, r, fl⟩ : RingBufferState α) out n
            = (w - r, ⟨buf, w, w, false⟩, copyInto out 0 buf r (w - r)) := by
          simp [get_bulk_locked, mark_empty, hempty, hgt, hlt]
        rw [hres]
        refine ⟨by omega, length_copyInto out 0 buf r (w - r), ?_, ?_⟩
        · intro i hi
          exact getD_copyInto_of_ge out 0 buf r (w - r) i d (by omega)
        · intro i hi
          have h1 := getD_copyInto_of_lt out 0 buf r (w - r) i d hi (by omega) (by omega)
          rw [Nat.zero_add] at h1
          rw [h1]
          exact getD_mem_of_lt buf (r + i) d (by omega)
    · by_cases hge : N - r ≤ n
      · by_cases hrem : n - (N - r) < w
        · have hres : get_bulk_locked N (⟨buf, w, r, fl⟩ : RingBufferState α) out n
              = (n, ⟨buf, w, n - (N - r), fl⟩,
                 copyInto (copyInto out 0 buf r (N - r)) (N - r) buf 0 (n - (N - r))) := by
            simp [get_bulk_locked, hempty, hgt, hge, hrem]
          rw [hres]
          have hlen1 : (copyInto out 0 buf r (N - r)).length = out.length :=
            length_copyInto out 0 buf r (N - r)
          refine ⟨Nat.le_refl n, ?_, ?_, ?_⟩
          · rw [length_copyInto, hlen1]
          · intro i hi
            rw [getD_copyInto_of_ge (copyInto out 0 buf r (N - r)) (N - r) buf 0
                  (n - (N - r)) i d (by omega)]
            exact getD_copyInto_of_ge out 0 buf r (N - r) i d (by omega)
          · intro i hi
            rcases Nat.lt_or_ge i (N - r) with hlt2 | hge2
            · rw [getD_copyInto_of_lt_off (copyInto out 0 buf r (N - r)) (N - r) buf 0
                    (n - (N - r)) i d hlt2]
              have h1 := getD_copyInto_of_lt out 0 buf r (N - r) i d hlt2 (by omega) (by omega)
              rw [Nat.zero_add] at h1
              rw [h1]
              exact getD_mem_of_lt buf (r + i) d (by omega)
            · have hi2 : i = (N - r) + (i - (N - r)) := by omega
              rw [hi2]
              have h1 := getD_copyInto_of_lt (copyInto out 0 buf r (N - r)) (N - r) buf 0
                  (n - (N - r)) (i - (N - r)) d (by omega) (by rw [hlen1]; omega) (by omega)
              rw [Nat.zero_add] at h1
              rw [h1]
              exact getD_mem_of_lt buf (i - (N - r)) d (by omega)
        · have hres : get_bulk_locked N (⟨buf, w, r, fl⟩ : RingBufferState α) out n
              = ((N - r) + w, ⟨buf, w, w, false⟩,
                 copyInto (copyInto out 0 buf r (N - r)) (N - r) buf 0 w) := by
            simp [get_bulk_locked, mark_empty, hempty, hgt, hge, hrem]
          rw [hres]
          have hlen1 : (copyInto out 0 buf r (N - r)).length = out.length :=
            length_copyInto out 0 buf r (N - r)
          refine ⟨by omega, ?_, ?_, ?_⟩
          · rw [length_copyInto, hlen1]
          · intro i hi
            rw [getD_copyInto_of_ge (copyInto out 0 buf r (N - r)) (N - r) buf 0 w i d
                  (by omega)]
            exact getD_copyInto_of_ge out 0 buf r (N - r) i d (by omega)
          · intro i hi
            rcases Nat.lt_or_ge i (N - r) with hlt2 | hge2
            · rw [getD_copyInto_of_lt_off (copyInto out 0 buf r (N - r)) (N - r) buf 0 w i d
                    hlt2]
              have h1 := getD_copyInto_of_lt out 0 buf r (N - r) i d hlt2 (by omega) (by omega)
              rw [Nat.zero_add] at h1
              rw [h1]
              exact getD_mem_of_lt buf (r + i) d (by omega)
            · have hi2 : i = (N - r) + (i - (N - r)) := by omega
              rw [hi2]
              have h1 := getD_copyInto_of_lt (copyInto out 0 buf r (N - r)) (N - r) buf 0
                  w (i - (N - r)) d (by omega) (by rw [hlen1]; omega) (by omega)
              rw [Nat.zero_add] at h1
              rw [h1]
              exact getD_mem_of_lt buf (i - (N - r)) d (by omega)
      · have hres : get_bulk_locked N (⟨buf, w, r, fl⟩ : RingBufferState α) out n
            = (n, ⟨buf, w, r + n, fl⟩, copyInto out 0 buf w n) := by
          simp [get_bulk_locked, hempty, hgt, hge]
        rw [hres]
        refine ⟨Nat.le_refl n, length_copyInto out 0 buf w n, ?_, ?_⟩
        · intro i hi
          exact getD_copyInto_of_ge out 0 buf w n i d (by omega)
        · intro i hi
          have h1 := getD_copyInto_of_lt out 0 buf w n i d hi (by omega) (by omega)
          rw [Nat.zero_add] at h1
          rw [h1]
          exact getD_mem_of_lt buf (w + i) d (by omega)

end RingBuffer

/-- C10: for every buffer state satisfying the structural invariants and every
bulk get of n items with the lock acquired, the returned count is at most n,
the caller's output array keeps its length, exactly the first count positions
are written (each receiving an element of the buffer storage), and every
output position at index count or beyond is left untouched. -/
theorem C10_bulk_get_writes_exactly_count [Inhabited α] (N : Nat) (s : RingBufferState α)
    (out : List α) (n : Nat) (d : α) (hw : s.write_index < N) (hr : s.read_index < N)
    (hbuf : s.buffer.length = N) (hn : n ≤ out.length) :
    (RingBuffer.get_bulk N true s out n).1.value ≤ n ∧
    (RingBuffer.get_bulk N true s out n).2.2.length = out.length ∧
    (∀ i, (RingBuffer.get_bulk N true s out n).1.value ≤ i →
      (RingBuffer.get_bulk N true s out n).2.2.getD i d = out.getD i d) ∧
    (∀ i, i < (RingBuffer.get_bulk N true s out n).1.value →
      (RingBuffer.get_bulk N true s out n).2.2.getD i d ∈ s.buffer) := by
  obtain ⟨buf, w, r, fl⟩ := s
  exact RingBuffer.get_bulk_locked_frame N buf out w r fl n d hw hr hbuf hn

/-- Witness for C10_bulk_get_writes_exactly_count: wrapped capacity-4 state,
output array of length 3, request of 2 items. -/
theorem C10_witness :
    ((⟨[1, 2, 3, 4], 1, 2, false⟩ : RingBufferState Nat).write_index < 4 ∧
     (⟨[1, 2, 3, 4], 1, 2, false⟩ : RingBufferState Nat).read_index < 4 ∧
     (⟨[1, 2, 3, 4], 1, 2, false⟩ : RingBufferState Nat).buffer.length = 4 ∧
     2 ≤ [9, 9, 9].length) ∧
    ((RingBuffer.get_bulk 4 true (⟨[1, 2, 3, 4], 1, 2, false⟩ : RingBufferState Nat)
        [9, 9, 9] 2).1.value ≤ 2 ∧
     (RingBuffer.get_bulk 4 true (⟨[1, 2, 3, 4], 1, 2, false⟩ : RingBufferState Nat)
        [9, 9, 9] 2).2.2.length = [9, 9, 9].length ∧
     (∀ i, (RingBuffer.get_bulk 4 true (⟨[1, 2, 3, 4], 1, 2, false⟩ : RingBufferState Nat)
        [9, 9, 9] 2).1.value ≤ i →
       (RingBuffer.get_bulk 4 true (⟨[1, 2, 3, 4], 1, 2, false⟩ : RingBufferState Nat)
          [9, 9, 9] 2).2.2.getD i 0 = [9, 9, 9].getD i 0) ∧
     (∀ i, i < (RingBuffer.get_bulk 4 true (⟨[1, 2, 3, 4], 1, 2, false⟩ : RingBufferState Nat)
        [9, 9, 9] 2).1.value →
       (RingBuffer.get_bulk 4 true (⟨[1, 2, 3, 4], 1, 2, false⟩ : RingBufferState Nat)
          [9, 9, 9] 2).2.2.getD i 0
         ∈ (⟨[1, 2, 3, 4], 1, 2, false⟩ : RingBufferState Nat).buffer)) :=
  ⟨by decide,
   C10_bulk_get_writes_exactly_count 4 ⟨[1, 2, 3, 4], 1, 2, false⟩ [9, 9, 9] 2 0
     (by decide) (by decide) (by decide) (by decide)⟩
